import Mathlib

/-!
Verification of the plan-parsing / command-translation / execution layer of
the AI task-agent repository (`agent.py`).  The Python functions
`_convert_to_windows_command`, `generate_plan` (its parsing, filtering and
safety-check section), `execute_command` and `_wait_for_model` are embedded
as executable Lean definitions; the string primitives used by the Python code
(`str.strip`, `str.startswith`, `str.replace`, `str.split`, `str.lower`,
substring membership) are modelled over `List Char` so that every definition
reduces in the kernel.
-/

/-- Whitespace characters stripped by Python's `str.strip()`. -/
def isPySpace (c : Char) : Bool :=
  c == ' ' || c == '\t' || c == '\n' || c == '\r' || c == '\x0b' || c == '\x0c'

/-- Drop characters satisfying `p` from both ends of a character list
(Python `str.strip` with a one-character strip set, or `str.strip()`). -/
def stripEnds (p : Char → Bool) (l : List Char) : List Char :=
  ((l.dropWhile p).reverse.dropWhile p).reverse

/-- `listStartsWith pre l` is true when `l` begins with `pre`
(Python `str.startswith`). -/
def listStartsWith : List Char → List Char → Bool
  | [], _ => true
  | _ :: _, [] => false
  | p :: ps, c :: cs => p == c && listStartsWith ps cs

/-- Locate the leftmost occurrence of `pat` in `l`; returns the part before
the occurrence and the part after it. -/
def splitFirst (pat : List Char) : List Char → Option (List Char × List Char)
  | [] => none
  | c :: cs =>
    if listStartsWith pat (c :: cs) then some ([], (c :: cs).drop pat.length)
    else
      match splitFirst pat cs with
      | none => none
      | some (pre, post) => some (c :: pre, post)

/-- Fuel-indexed splitting at every occurrence of a separator, scanning left
to right (Python `str.split(sep)` for a non-empty `sep`). -/
def splitOnChAux : Nat → List Char → List Char → List (List Char)
  | 0, _, l => [l]
  | fuel + 1, pat, l =>
    match splitFirst pat l with
    | none => [l]
    | some (pre, post) => pre :: splitOnChAux fuel pat post

/-- Split `l` at every occurrence of `pat` (Python `str.split(sep)`). -/
def splitOnCh (pat l : List Char) : List (List Char) :=
  splitOnChAux (l.length + 1) pat l

/-- Interleave `sep` between the pieces (Python `sep.join(parts)`). -/
def joinSep (sep : List Char) : List (List Char) → List Char
  | [] => []
  | [x] => x
  | x :: xs => x ++ sep ++ joinSep sep xs

/-- Replace every occurrence of `pat` by `rep` (Python `str.replace`). -/
def replaceAll (pat rep l : List Char) : List Char :=
  joinSep rep (splitOnCh pat l)

/-- Substring membership (Python `pat in s`). -/
def containsSub (pat l : List Char) : Bool :=
  if pat.isEmpty then true else (splitFirst pat l).isSome

/-- Python `str.strip()` on a `String`. -/
def pyStrip (s : String) : String :=
  ⟨stripEnds isPySpace s.data⟩

/-- Python `str.strip(c)` for a single strip character. -/
def pyStripChar (c : Char) (s : String) : String :=
  ⟨stripEnds (fun d => d == c) s.data⟩

/-- Python `s.startswith(pre)`. -/
def strStarts (s pre : String) : Bool :=
  listStartsWith pre.data s.data

/-- Python `pat in s`. -/
def strContains (s pat : String) : Bool :=
  containsSub pat.data s.data

/-- Python `s.replace(pat, rep)`. -/
def strReplace (s pat rep : String) : String :=
  ⟨replaceAll pat.data rep.data s.data⟩

/-- Python `s.split(sep)`. -/
def strSplit (s sep : String) : List String :=
  (splitOnCh sep.data s.data).map (fun l => ⟨l⟩)

/-- Python `s.lower()` (ASCII). -/
def strLower (s : String) : String :=
  ⟨s.data.map Char.toLower⟩

/-- Python `line[0].isdigit()` on a non-empty string (false on empty). -/
def firstIsDigit (s : String) : Bool :=
  match s.data with
  | [] => false
  | c :: _ => c.isDigit

/-- Backtick character. -/
def backtickChar : Char := Char.ofNat 96

/-- Double-quote character. -/
def dquoteChar : Char := Char.ofNat 34

/-- Single-quote character. -/
def squoteChar : Char := Char.ofNat 39

/-- Cleanup applied first by `_convert_to_windows_command`
(`cmd.strip('\x60').strip()`, agent.py line 65). -/
def cleanupCmd (cmd : String) : String :=
  pyStrip (pyStripChar backtickChar cmd)

/-- Embedding of `TaskAgent._convert_to_windows_command` (agent.py lines
62-96).  Returns `none` exactly on the path where the Python code raises
`IndexError`: a command starting with `echo -e` that does not contain the
substring `echo -e ` makes `cmd.split('echo -e ')[1]` fail. -/
def convertToWindowsCommand (cmd : String) : Option String :=
  let cmd := cleanupCmd cmd
  if strStarts cmd "rm " then
    some ("del " ++ strReplace cmd "rm " "")
  else if strStarts cmd "touch " then
    some ("echo. > " ++ strReplace cmd "touch " "")
  else if strStarts cmd "echo -e" then
    match (strSplit cmd "echo -e ").get? 1 with
    | none => none
    | some t =>
      let content := pyStripChar squoteChar (pyStripChar dquoteChar t)
      let content := strReplace (strReplace content "\\n" "\n") "\"" "\\\""
      some ("echo " ++ content)
  else if strStarts cmd "ls" then
    some (strReplace (strReplace (strReplace cmd "ls -la" "dir") "ls -l" "dir") "ls" "dir")
  else if strStarts cmd "pwd" then
    some "cd"
  else if strStarts cmd "chmod" then
    some "rem Skipping chmod (not needed on Windows)"
  else if strStarts cmd "cat " then
    some ("type " ++ strReplace cmd "cat " "")
  else if strStarts cmd "./" then
    some ("python " ++ (⟨cmd.data.drop 2⟩ : String))
  else if strStarts cmd "nano " then
    some ("notepad " ++ strReplace cmd "nano " "")
  else if strStarts cmd "mkdir " then
    some ("mkdir " ++ strReplace (strReplace cmd "mkdir " "") "/" "\\")
  else
    some cmd

/-- A parsed plan step.  The Python code uses a dict whose keys
`description` / `command` / `validation` may each be absent. -/
structure PlanStep where
  description : Option String := none
  command : Option String := none
  validation : Option String := none
deriving DecidableEq

/-- Parser state: the steps emitted so far and the current accumulator
(`steps` and `current_step` in `generate_plan`, agent.py lines 177-178). -/
structure ParseState where
  steps : List PlanStep
  cur : PlanStep
deriving DecidableEq

/-- The fresh accumulator `current_step = \x7b\x7d`. -/
def emptyStep : PlanStep := {}

/-- Truthiness of the `current_step` dict (non-empty iff some key present). -/
def dictNonempty (s : PlanStep) : Bool :=
  s.description.isSome || s.command.isSome || s.validation.isSome

/-- Embedding of `if current_step and 'description' in current_step:
steps.append(current_step)` (agent.py lines 187-188, 193-194, 210-211). -/
def flushIfDescribed (steps : List PlanStep) (cur : PlanStep) : List PlanStep :=
  if dictNonempty cur && cur.description.isSome then steps ++ [cur] else steps

/-- Boundary (a): `line[0].isdigit() and ': Description:' in line`
(agent.py line 186). -/
def lineIsNumberedDescr (l : String) : Bool :=
  firstIsDigit l && strContains l ": Description:"

/-- Boundary (b): `line.startswith('Step')` (agent.py line 192). -/
def lineIsStepHeader (l : String) : Bool :=
  strStarts l "Step"

/-- Boundary (c): `line.startswith('Description:')` (agent.py line 197). -/
def lineIsDescr (l : String) : Bool :=
  strStarts l "Description:"

/-- Command values treated as absent (agent.py line 202). -/
def absentCommands : List String := ["n/a", "none", "no command"]

/-- Embedding of one loop iteration of the parser in `generate_plan`
(agent.py lines 180-208), applied to the already-stripped line.  `none`
models an exception escaping the loop body (only possible from
`_convert_to_windows_command`). -/
def processStripped (st : ParseState) (line : String) : Option ParseState :=
  if line.data.isEmpty then some st
  else if lineIsNumberedDescr line then
    some ⟨flushIfDescribed st.steps st.cur,
      { emptyStep with
        description := some (pyStrip ((strSplit line ": Description:").getD 1 "")) }⟩
  else if lineIsStepHeader line then
    some ⟨flushIfDescribed st.steps st.cur, emptyStep⟩
  else if lineIsDescr line then
    some ⟨st.steps,
      { st.cur with description := some (pyStrip (strReplace line "Description:" "")) }⟩
  else if strStarts line "Command:" then
    let cmd := pyStrip (strReplace line "Command:" "")
    if !cmd.data.isEmpty && !(absentCommands.contains (strLower cmd)) then
      match convertToWindowsCommand cmd with
      | none => none
      | some c =>
        if !c.data.isEmpty then some ⟨st.steps, { st.cur with command := some c }⟩
        else some st
    else some st
  else if strStarts line "Validation:" then
    some ⟨st.steps,
      { st.cur with validation := some (pyStrip (strReplace line "Validation:" "")) }⟩
  else some st

/-- One parser iteration on a raw line: `line = line.strip()` first
(agent.py line 181). -/
def processLine (st : ParseState) (raw : String) : Option ParseState :=
  processStripped st (pyStrip raw)

/-- Fold of `processLine` over the lines of the plan text. -/
def parseLinesAux : ParseState → List String → Option ParseState
  | st, [] => some st
  | st, l :: ls =>
    match processLine st l with
    | none => none
    | some st2 => parseLinesAux st2 ls

/-- Embedding of the parsing section of `generate_plan` (agent.py lines
176-211): split on newlines, fold the line handler, then flush the final
accumulator. -/
def parseSteps (text : String) : Option (List PlanStep) :=
  match parseLinesAux ⟨[], emptyStep⟩ (strSplit text "\n") with
  | none => none
  | some st => some (flushIfDescribed st.steps st.cur)

/-- Filter predicate of agent.py line 214: `'command' in step and not
step['command'].startswith('rem Skipping')`. -/
def keepStep (s : PlanStep) : Bool :=
  match s.command with
  | none => false
  | some c => !(strStarts c "rem Skipping")

/-- Embedding of the filtering pass (agent.py line 214). -/
def filterSteps (steps : List PlanStep) : List PlanStep :=
  steps.filter keepStep

/-- The deny-list of agent.py line 222. -/
def unsafePatterns : List String := ["rm -rf /", "mkfs", ":()\x7b:|:&\x7d;:", "format c:"]

/-- One step of the safety loop: `any(unsafe in step['command'].lower() for
unsafe in [...])` (agent.py line 222). -/
def stepUnsafe (s : PlanStep) : Bool :=
  unsafePatterns.any (fun p => strContains (strLower (s.command.getD "")) p)

/-- The safety loop over all steps (agent.py lines 221-223). -/
def hasUnsafe (steps : List PlanStep) : Bool :=
  steps.any stepUnsafe

/-- The fixed diagnostic plan returned by the `except` handler of
`generate_plan` (agent.py lines 230-234). -/
def fallbackPlan : List PlanStep :=
  [⟨some "Create a Python file to check if a number is odd or even",
    some "echo print(\"Even\" if int(input(\"Enter a number: \")) % 2 == 0 else \"Odd\") > test.py",
    some "Check if the file was created with the correct code"⟩]

/-- Embedding of the `try`-block of `generate_plan` from the point where the
raw plan text is in hand (agent.py lines 176-225).  `Except.error` models an
exception raised inside the block: a conversion `IndexError`, the
`"No valid steps generated"` raise (line 218) and the
`"Unsafe command detected"` raise (line 223). -/
def generatePlanTry (planText : String) : Except String (List PlanStep) :=
  match parseSteps planText with
  | none => Except.error "conversion error"
  | some parsed =>
    let steps := filterSteps parsed
    if steps.isEmpty then Except.error "No valid steps generated"
    else if hasUnsafe steps then Except.error "Unsafe command detected"
    else Except.ok steps

/-- Embedding of `generate_plan`'s result as seen by its caller: the
`except` handler (agent.py lines 227-234) catches every exception from the
`try`-block and returns the fixed fallback plan. -/
def generatePlan (planText : String) : List PlanStep :=
  match generatePlanTry planText with
  | Except.ok steps => steps
  | Except.error _ => fallbackPlan

/-- Outcome of one shell command as the operating system would report it:
how long the command runs, its exit status, and its two output streams. -/
structure ShellProcess where
  duration : Nat
  returncode : Int
  stdout : String
  stderr : String
deriving DecidableEq

/-- Result of `subprocess.run`: either a completed process or a raised
exception (message only). -/
inductive RunOutcome where
  | completed (returncode : Int) (stdout stderr : String)
  | raised (msg : String)
deriving DecidableEq

/-- Semantics of `subprocess.run(cmd, shell=True, capture_output=True,
text=True, timeout=t)`: `TimeoutExpired` is raised iff a timeout was passed
and the process runs longer; with no timeout the call blocks until the
process completes. -/
def subprocessRun (timeout : Option Nat) (p : ShellProcess) : RunOutcome :=
  match timeout with
  | some t =>
    if t < p.duration then RunOutcome.raised "TimeoutExpired"
    else RunOutcome.completed p.returncode p.stdout p.stderr
  | none => RunOutcome.completed p.returncode p.stdout p.stderr

/-- The timeout argument `execute_command` passes to `subprocess.run`:
agent.py lines 245-250 pass none. -/
def executionTimeout : Option Nat := none

/-- Embedding of `TaskAgent.execute_command` (agent.py lines 236-265),
parameterised by the behaviour `p` of the launched shell process.  The
empty-command `ValueError` (line 243) and any exception from
`subprocess.run` are caught by the handler (lines 262-265), which returns
`(False, str(e))`; otherwise the result is
`(returncode == 0, stdout or stderr)` (line 261). -/
def executeCommand (command : String) (p : ShellProcess) : Bool × String :=
  if command.data.isEmpty || (pyStrip command).data.isEmpty then
    (false, "Empty command received")
  else
    match subprocessRun executionTimeout p with
    | RunOutcome.completed rc out err =>
      (rc == 0, if out.data.isEmpty then err else out)
    | RunOutcome.raised msg => (false, msg)

/-- Outcome of one readiness probe in `_wait_for_model`: an HTTP status
code, or an exception from `requests.post`. -/
inductive ProbeResult where
  | status (code : Nat)
  | exn (msg : String)

/-- The primary model endpoint (agent.py line 16). -/
def primaryUrl : String :=
  "https://api-inference.huggingface.co/models/mistralai/Mistral-7B-Instruct-v0.2"

/-- The fallback model endpoint (agent.py line 59). -/
def fallbackUrl : String :=
  "https://api-inference.huggingface.co/models/TinyLlama/TinyLlama-1.1B-Chat-v1.0"

/-- Embedding of the retry loop of `_wait_for_model` (agent.py lines 26-60),
parameterised by the outcome of the i-th probe.  Status 200 returns `True`
immediately; every other outcome (429, other statuses, exceptions) increments
`retry_count`; when the three retries are exhausted the client switches
`self.api_url` to the fallback model and still returns `True` (lines 57-60).
The returned pair is (result, final `api_url`). -/
def waitForModelAux (probes : Nat → ProbeResult) (url : String) :
    Nat → Nat → Bool × String
  | _, 0 => (true, fallbackUrl)
  | i, remaining + 1 =>
    match probes i with
    | ProbeResult.status 200 => (true, url)
    | ProbeResult.status _ => waitForModelAux probes url (i + 1) remaining
    | ProbeResult.exn _ => waitForModelAux probes url (i + 1) remaining

/-- Embedding of `_wait_for_model` (`max_retries = 3`, starting from the
primary endpoint). -/
def waitForModel (probes : Nat → ProbeResult) : Bool × String :=
  waitForModelAux probes primaryUrl 0 3

/-- Embedding of the guard at agent.py lines 125-126: `if not
self._wait_for_model(): raise Exception("Model not available")`. -/
def generatePlanModelCheck (probes : Nat → ProbeResult) : Except String Unit :=
  if (waitForModel probes).fst = false then Except.error "Model not available"
  else Except.ok ()

/-- Weight of the accumulator for the step-count bound: 1 when it would be
flushed, 0 otherwise. -/
def curWeight (s : PlanStep) : Nat :=
  if s.description.isSome then 1 else 0

/-- Commands stored in a step are never the empty string (guarded by
`if cmd:` at agent.py line 205). -/
def cmdOK (s : PlanStep) : Prop :=
  ∀ c, s.command = some c → c.data.isEmpty = false

/-- Invariant carried by the emitted step list: every step has a
description key and a non-empty command whenever a command key is
present. -/
def stepsOK (steps : List PlanStep) : Prop :=
  ∀ s ∈ steps, s.description.isSome = true ∧ cmdOK s

/-- A raw line is a recognizable step boundary in the sense of the spec:
kinds (a), (b), (c) of the parser (after stripping). -/
def isBoundaryLine (raw : String) : Bool :=
  lineIsNumberedDescr (pyStrip raw) || lineIsStepHeader (pyStrip raw) ||
    lineIsDescr (pyStrip raw)

/-- Number of recognizable step boundaries in a raw plan text. -/
def boundaryCount (text : String) : Nat :=
  ((strSplit text "\n").filter isBoundaryLine).length

/-- The translator's rewrite rules: the initial backtick/whitespace cleanup
(agent.py line 65) and the ordered prefix rules of lines 68-95.  A command
matches a rule when the cleanup changes it or some rule prefix applies. -/
def rewritePrefixes : List String :=
  ["rm ", "touch ", "echo -e", "ls", "pwd", "chmod", "cat ", "./", "nano ", "mkdir "]

/-- Predicate: `cmd` matches at least one of the translator's rewrite
rules. -/
def matchesRewriteRule (cmd : String) : Bool :=
  !(cleanupCmd cmd == cmd) || rewritePrefixes.any (fun p => strStarts cmd p)

/-- Decomposition of a successful prefix test. -/
theorem listStartsWith_head {p : Char} {ps l : List Char}
    (h : listStartsWith (p :: ps) l = true) :
    ∃ cs, l = p :: cs ∧ listStartsWith ps cs = true := by
  cases l with
  | nil => simp [listStartsWith] at h
  | cons c cs =>
    simp only [listStartsWith, Bool.and_eq_true, beq_iff_eq] at h
    exact ⟨cs, by rw [h.1], h.2⟩

/-- A prefix test fails when the head characters differ. -/
theorem listStartsWith_head_ne {q p : Char} {qs cs : List Char}
    (h : (q == p) = false) : listStartsWith (q :: qs) (p :: cs) = false := by
  simp [listStartsWith, h]

/-- The flush of agent.py lines 187-188 appends the accumulator exactly when
it has a description (a dict with a `description` key is non-empty). -/
theorem flushIfDescribed_eq (steps : List PlanStep) (cur : PlanStep) :
    flushIfDescribed steps cur =
      if cur.description.isSome then steps ++ [cur] else steps := by
  cases hd : cur.description <;>
    simp [flushIfDescribed, dictNonempty, hd]


theorem flushIfDescribed_length (steps : List PlanStep) (cur : PlanStep) :
    (flushIfDescribed steps cur).length = steps.length + curWeight cur := by
  rw [flushIfDescribed_eq]
  cases hd : cur.description <;> simp [curWeight, hd]

theorem flushIfDescribed_mem {steps : List PlanStep} {cur s : PlanStep}
    (h : s ∈ flushIfDescribed steps cur) :
    s ∈ steps ∨ (s = cur ∧ cur.description.isSome = true) := by
  rw [flushIfDescribed_eq] at h
  cases hd : cur.description with
  | none => rw [hd] at h; simp only [Option.isSome_none, Bool.false_eq_true, if_false] at h
            exact Or.inl h
  | some d =>
    rw [hd] at h
    simp only [Option.isSome_some, if_true, List.mem_append, List.mem_singleton] at h
    cases h with
    | inl h => exact Or.inl h
    | inr h => exact Or.inr ⟨h, by simp [hd]⟩

/-- Head-character facts for a line that starts with `Description:`. -/
theorem descrLine_facts {l : String} (h : lineIsDescr l = true) :
    l.data.isEmpty = false ∧ lineIsNumberedDescr l = false ∧
      lineIsStepHeader l = false := by
  have h' : listStartsWith ('D' :: "escription:".data) l.data = true := h
  obtain ⟨cs, hl, _⟩ := listStartsWith_head h'
  refine ⟨by rw [hl]; rfl, ?_, ?_⟩
  · have hfd : firstIsDigit l = false := by
      simp only [firstIsDigit, hl]; decide
    simp [lineIsNumberedDescr, hfd]
  · show listStartsWith ('S' :: "tep".data) l.data = false
    rw [hl]
    exact listStartsWith_head_ne (by decide)

/-- Head-character facts for a line that starts with `Command:`. -/
theorem commandLine_facts {l : String} (h : strStarts l "Command:" = true) :
    l.data.isEmpty = false ∧ lineIsNumberedDescr l = false ∧
      lineIsStepHeader l = false ∧ lineIsDescr l = false := by
  have h' : listStartsWith ('C' :: "ommand:".data) l.data = true := h
  obtain ⟨cs, hl, _⟩ := listStartsWith_head h'
  refine ⟨by rw [hl]; rfl, ?_, ?_, ?_⟩
  · have hfd : firstIsDigit l = false := by
      simp only [firstIsDigit, hl]; decide
    simp [lineIsNumberedDescr, hfd]
  · show listStartsWith ('S' :: "tep".data) l.data = false
    rw [hl]; exact listStartsWith_head_ne (by decide)
  · show listStartsWith ('D' :: "escription:".data) l.data = false
    rw [hl]; exact listStartsWith_head_ne (by decide)

/-- Head-character facts for a line that starts with `Validation:`. -/
theorem validLine_facts {l : String} (h : strStarts l "Validation:" = true) :
    l.data.isEmpty = false ∧ lineIsNumberedDescr l = false ∧
      lineIsStepHeader l = false ∧ lineIsDescr l = false ∧
      strStarts l "Command:" = false := by
  have h' : listStartsWith ('V' :: "alidation:".data) l.data = true := h
  obtain ⟨cs, hl, _⟩ := listStartsWith_head h'
  refine ⟨by rw [hl]; rfl, ?_, ?_, ?_, ?_⟩
  · have hfd : firstIsDigit l = false := by
      simp only [firstIsDigit, hl]; decide
    simp [lineIsNumberedDescr, hfd]
  · show listStartsWith ('S' :: "tep".data) l.data = false
    rw [hl]; exact listStartsWith_head_ne (by decide)
  · show listStartsWith ('D' :: "escription:".data) l.data = false
    rw [hl]; exact listStartsWith_head_ne (by decide)
  · show listStartsWith ('C' :: "ommand:".data) l.data = false
    rw [hl]; exact listStartsWith_head_ne (by decide)

/-- Non-emptiness facts for a numbered-description line. -/
theorem numberedLine_nonempty {l : String} (h : lineIsNumberedDescr l = true) :
    l.data.isEmpty = false := by
  have hfd : firstIsDigit l = true := by
    simp only [lineIsNumberedDescr, Bool.and_eq_true] at h
    exact h.1
  cases hd : l.data with
  | nil =>
    simp only [firstIsDigit, hd] at hfd
    exact absurd hfd Bool.false_ne_true
  | cons c cs => rfl

/-- Non-emptiness facts for a step-header line, and the fact that it is
never also a numbered-description line (its head is the letter `S`). -/
theorem stepLine_facts {l : String} (h : lineIsStepHeader l = true) :
    l.data.isEmpty = false ∧ lineIsNumberedDescr l = false := by
  have h' : listStartsWith ('S' :: "tep".data) l.data = true := h
  obtain ⟨cs, hl, _⟩ := listStartsWith_head h'
  refine ⟨by rw [hl]; rfl, ?_⟩
  have hfd : firstIsDigit l = false := by
    simp only [firstIsDigit, hl]; decide
  simp [lineIsNumberedDescr, hfd]

/-- Behaviour of the parser loop on a numbered-description boundary
(agent.py lines 186-190): flush the described accumulator and start a fresh
one holding the inline description. -/
theorem processStripped_numbered (st : ParseState) {l : String}
    (h : lineIsNumberedDescr l = true) :
    processStripped st l =
      some ⟨flushIfDescribed st.steps st.cur,
        { emptyStep with
          description := some (pyStrip ((strSplit l ": Description:").getD 1 "")) }⟩ := by
  unfold processStripped
  rw [numberedLine_nonempty h, h]
  rfl

/-- Behaviour of the parser loop on a step-header boundary (agent.py lines
192-195): flush the described accumulator and start an empty one. -/
theorem processStripped_header (st : ParseState) {l : String}
    (h : lineIsStepHeader l = true) :
    processStripped st l =
      some ⟨flushIfDescribed st.steps st.cur, emptyStep⟩ := by
  obtain ⟨hne, hnum⟩ := stepLine_facts h
  unfold processStripped
  rw [hne, hnum, h]
  rfl

/-- Behaviour of the parser loop on a bare `Description:` line (agent.py
lines 197-198): no flush happens; the accumulator's description is
overwritten in place. -/
theorem processStripped_descr (st : ParseState) {l : String}
    (h : lineIsDescr l = true) :
    processStripped st l =
      some ⟨st.steps,
        { st.cur with
          description := some (pyStrip (strReplace l "Description:" "")) }⟩ := by
  obtain ⟨hne, hnum, hstep⟩ := descrLine_facts h
  unfold processStripped
  rw [hne, hnum, hstep, h]
  rfl

/-- Behaviour of the parser loop on a `Validation:` line (agent.py lines
207-208): the accumulator's validation field is overwritten in place. -/
theorem processStripped_valid (st : ParseState) {l : String}
    (h : strStarts l "Validation:" = true) :
    processStripped st l =
      some ⟨st.steps,
        { st.cur with
          validation := some (pyStrip (strReplace l "Validation:" "")) }⟩ := by
  obtain ⟨hne, hnum, hstep, hdescr, hcmd⟩ := validLine_facts h
  unfold processStripped
  rw [hne, hnum, hstep, hdescr, hcmd, h]
  rfl

/-- Behaviour of the parser loop on a `Command:` line whose value is empty
or one of the absent markers `n/a` / `none` / `no command` (agent.py lines
199-202): the state is left unchanged — in particular an absent value never
overwrites an earlier command. -/
theorem processStripped_command_absent (st : ParseState) {l : String}
    (h : strStarts l "Command:" = true)
    (habs : (pyStrip (strReplace l "Command:" "")).data.isEmpty = true ∨
      absentCommands.contains (strLower (pyStrip (strReplace l "Command:" ""))) = true) :
    processStripped st l = some st := by
  obtain ⟨hne, hnum, hstep, hdescr⟩ := commandLine_facts h
  unfold processStripped
  rw [hne, hnum, hstep, hdescr, h]
  simp only []
  cases habs with
  | inl he => rw [he]; rfl
  | inr ha =>
    rw [ha]
    cases he : (pyStrip (strReplace l "Command:" "")).data.isEmpty <;> rfl

/-- Behaviour of the parser loop on a `Command:` line with a present value:
the value is translated and, when the translation is non-empty, it
overwrites the accumulator's command (agent.py lines 199-206). -/
theorem processStripped_command_set (st : ParseState) {l c : String}
    (h : strStarts l "Command:" = true)
    (hne : (pyStrip (strReplace l "Command:" "")).data.isEmpty = false)
    (habs : absentCommands.contains (strLower (pyStrip (strReplace l "Command:" ""))) = false)
    (hconv : convertToWindowsCommand (pyStrip (strReplace l "Command:" "")) = some c)
    (hcne : c.data.isEmpty = false) :
    processStripped st l = some ⟨st.steps, { st.cur with command := some c }⟩ := by
  obtain ⟨hlne, hnum, hstep, hdescr⟩ := commandLine_facts h
  unfold processStripped
  rw [hlne, hnum, hstep, hdescr, h]
  simp only [hne, habs, hconv, hcne]
  rfl

/-- A blank (stripped-empty) line is skipped (agent.py lines 182-183). -/
theorem processStripped_empty (st : ParseState) {l : String}
    (h : l.data.isEmpty = true) : processStripped st l = some st := by
  unfold processStripped
  rw [h]
  rfl

/-- A `Command:` line whose translated value comes back empty leaves the
state unchanged (`if cmd:` guard, agent.py line 205). -/
theorem processStripped_command_convempty (st : ParseState) {l c : String}
    (h : strStarts l "Command:" = true)
    (hne : (pyStrip (strReplace l "Command:" "")).data.isEmpty = false)
    (habs : absentCommands.contains (strLower (pyStrip (strReplace l "Command:" ""))) = false)
    (hconv : convertToWindowsCommand (pyStrip (strReplace l "Command:" "")) = some c)
    (hcne : c.data.isEmpty = true) :
    processStripped st l = some st := by
  obtain ⟨hlne, hnum, hstep, hdescr⟩ := commandLine_facts h
  unfold processStripped
  rw [hlne, hnum, hstep, hdescr, h]
  simp only [hne, habs, hconv, hcne]
  rfl

/-- A `Command:` line whose translation raises propagates the exception
(agent.py line 204 calling `_convert_to_windows_command`). -/
theorem processStripped_command_convfail (st : ParseState) {l : String}
    (h : strStarts l "Command:" = true)
    (hne : (pyStrip (strReplace l "Command:" "")).data.isEmpty = false)
    (habs : absentCommands.contains (strLower (pyStrip (strReplace l "Command:" ""))) = false)
    (hconv : convertToWindowsCommand (pyStrip (strReplace l "Command:" "")) = none) :
    processStripped st l = none := by
  obtain ⟨hlne, hnum, hstep, hdescr⟩ := commandLine_facts h
  unfold processStripped
  rw [hlne, hnum, hstep, hdescr, h]
  simp only [hne, habs, hconv]
  rfl

/-- An unrecognised line is silently ignored (no matching branch in
agent.py lines 185-208). -/
theorem processStripped_other (st : ParseState) {l : String}
    (hne : l.data.isEmpty = false)
    (hnum : lineIsNumberedDescr l = false)
    (hstep : lineIsStepHeader l = false)
    (hdescr : lineIsDescr l = false)
    (hcmd : strStarts l "Command:" = false)
    (hval : strStarts l "Validation:" = false) :
    processStripped st l = some st := by
  unfold processStripped
  rw [hne, hnum, hstep, hdescr, hcmd, hval]
  rfl





theorem flush_stepsOK {steps : List PlanStep} {cur : PlanStep}
    (hsteps : stepsOK steps) (hcur : cmdOK cur) :
    stepsOK (flushIfDescribed steps cur) := by
  intro s hs
  cases flushIfDescribed_mem hs with
  | inl h => exact hsteps s h
  | inr h => exact ⟨h.1 ▸ h.2, h.1 ▸ hcur⟩

/-- Per-line preservation of the parser invariants, together with the
step-count bound: a line adds at most one step, and only when it is a
recognizable boundary. -/
theorem processLine_inv {st st' : ParseState} {raw : String}
    (h : processLine st raw = some st')
    (hsteps : stepsOK st.steps) (hcur : cmdOK st.cur) :
    stepsOK st'.steps ∧ cmdOK st'.cur ∧
      st'.steps.length + curWeight st'.cur ≤
        st.steps.length + curWeight st.cur +
          (if isBoundaryLine raw = true then 1 else 0) := by
  unfold processLine at h
  by_cases hnum : lineIsNumberedDescr (pyStrip raw) = true
  · rw [processStripped_numbered st hnum] at h
    obtain rfl := Option.some.inj h
    refine ⟨flush_stepsOK hsteps hcur, ?_, ?_⟩
    · intro c hc; simp [emptyStep] at hc
    · have hb : isBoundaryLine raw = true := by
        simp [isBoundaryLine, hnum]
      rw [hb, if_pos rfl]
      simp only [flushIfDescribed_length]
      simp [curWeight, emptyStep]
  · by_cases hstep : lineIsStepHeader (pyStrip raw) = true
    · rw [processStripped_header st hstep] at h
      obtain rfl := Option.some.inj h
      refine ⟨flush_stepsOK hsteps hcur, ?_, ?_⟩
      · intro c hc; simp [emptyStep] at hc
      · have hb : isBoundaryLine raw = true := by
          simp [isBoundaryLine, hstep]
        rw [hb, if_pos rfl]
        simp only [flushIfDescribed_length]
        simp [curWeight, emptyStep]
    · by_cases hdescr : lineIsDescr (pyStrip raw) = true
      · rw [processStripped_descr st hdescr] at h
        obtain rfl := Option.some.inj h
        refine ⟨hsteps, ?_, ?_⟩
        · intro c hc; exact hcur c hc
        · have hb : isBoundaryLine raw = true := by
            simp [isBoundaryLine, hdescr]
          rw [hb, if_pos rfl]
          simp [curWeight]
      · have hnoflush : st'.steps = st.steps ∧ st'.cur.description = st.cur.description ∧
            (cmdOK st.cur → cmdOK st'.cur) := by
          by_cases hempty : (pyStrip raw).data.isEmpty = true
          · rw [processStripped_empty st hempty] at h
            obtain rfl := Option.some.inj h
            exact ⟨rfl, rfl, fun hc => hc⟩
          · by_cases hcmd : strStarts (pyStrip raw) "Command:" = true
            · by_cases habs : (pyStrip (strReplace (pyStrip raw) "Command:" "")).data.isEmpty = true ∨
                  absentCommands.contains (strLower (pyStrip (strReplace (pyStrip raw) "Command:" ""))) = true
              · rw [processStripped_command_absent st hcmd habs] at h
                obtain rfl := Option.some.inj h
                exact ⟨rfl, rfl, fun hc => hc⟩
              · push_neg at habs
                obtain ⟨hne0, habs0⟩ := habs
                have hne := Bool.eq_false_iff.mpr hne0
                have habs2 := Bool.eq_false_iff.mpr habs0
                cases hconv : convertToWindowsCommand (pyStrip (strReplace (pyStrip raw) "Command:" "")) with
                | none =>
                  rw [processStripped_command_convfail st hcmd hne habs2 hconv] at h
                  exact absurd h (by simp)
                | some c =>
                  cases hcne : c.data.isEmpty with
                  | true =>
                    rw [processStripped_command_convempty st hcmd hne habs2 hconv hcne] at h
                    obtain rfl := Option.some.inj h
                    exact ⟨rfl, rfl, fun hc => hc⟩
                  | false =>
                    rw [processStripped_command_set st hcmd hne habs2 hconv hcne] at h
                    obtain rfl := Option.some.inj h
                    refine ⟨rfl, rfl, fun _ => ?_⟩
                    intro c' hc'
                    simp only at hc'
                    obtain rfl := Option.some.inj hc'
                    exact hcne
            · by_cases hval : strStarts (pyStrip raw) "Validation:" = true
              · rw [processStripped_valid st hval] at h
                obtain rfl := Option.some.inj h
                exact ⟨rfl, rfl, fun hc => fun c hc' => hc c hc'⟩
              · have hempty2 := Bool.eq_false_iff.mpr hempty
                have hcmd2 := Bool.eq_false_iff.mpr hcmd
                have hval2 := Bool.eq_false_iff.mpr hval
                have hnum2 := Bool.eq_false_iff.mpr hnum
                have hstep2 := Bool.eq_false_iff.mpr hstep
                have hdescr2 := Bool.eq_false_iff.mpr hdescr
                rw [processStripped_other st hempty2 hnum2 hstep2 hdescr2 hcmd2 hval2] at h
                obtain rfl := Option.some.inj h
                exact ⟨rfl, rfl, fun hc => hc⟩
        obtain ⟨hs, hd, hc⟩ := hnoflush
        refine ⟨by rw [hs]; exact hsteps, hc hcur, ?_⟩
        rw [hs]
        have hw : curWeight st'.cur = curWeight st.cur := by
          simp [curWeight, hd]
        rw [hw]
        omega

/-- Invariants and the step-count bound propagated through the whole line
loop of the parser. -/
theorem parseLinesAux_inv : ∀ (lines : List String) (st st' : ParseState),
    parseLinesAux st lines = some st' →
    stepsOK st.steps → cmdOK st.cur →
    stepsOK st'.steps ∧ cmdOK st'.cur ∧
      st'.steps.length + curWeight st'.cur ≤
        st.steps.length + curWeight st.cur +
          (lines.filter isBoundaryLine).length := by
  intro lines
  induction lines with
  | nil =>
    intro st st' h hs hc
    unfold parseLinesAux at h
    obtain rfl := Option.some.inj h
    exact ⟨hs, hc, by simp⟩
  | cons l ls ih =>
    intro st st' h hs hc
    unfold parseLinesAux at h
    cases hpl : processLine st l with
    | none => rw [hpl] at h; exact absurd h (by simp)
    | some st2 =>
      rw [hpl] at h
      obtain ⟨hs2, hc2, hlen2⟩ := processLine_inv hpl hs hc
      obtain ⟨hs3, hc3, hlen3⟩ := ih st2 st' h hs2 hc2
      refine ⟨hs3, hc3, ?_⟩
      cases hb : isBoundaryLine l with
      | true =>
        rw [hb, if_pos rfl] at hlen2
        have hf : ((l :: ls).filter isBoundaryLine).length =
            (ls.filter isBoundaryLine).length + 1 := by
          simp [List.filter_cons, hb]
        rw [hf]
        omega
      | false =>
        rw [hb] at hlen2
        simp only [Bool.false_eq_true, if_false] at hlen2
        have hf : ((l :: ls).filter isBoundaryLine).length =
            (ls.filter isBoundaryLine).length := by
          simp [List.filter_cons, hb]
        rw [hf]
        omega

/-- The parser's output satisfies the step invariants and the boundary
bound. -/
theorem parseSteps_inv : ∀ (text : String) (steps : List PlanStep),
    parseSteps text = some steps →
    stepsOK steps ∧ steps.length ≤ boundaryCount text := by
  intro text steps h
  unfold parseSteps at h
  cases haux : parseLinesAux ⟨[], emptyStep⟩ (strSplit text "\n") with
  | none => rw [haux] at h; exact absurd h (by simp)
  | some st =>
    rw [haux] at h
    obtain rfl := Option.some.inj h
    have h0 : stepsOK ([] : List PlanStep) := by intro s hs; simp at hs
    have hc0 : cmdOK emptyStep := by intro c hc; simp [emptyStep] at hc
    obtain ⟨hs, hc, hlen⟩ := parseLinesAux_inv _ _ _ haux h0 hc0
    refine ⟨flush_stepsOK hs hc, ?_⟩
    rw [flushIfDescribed_length]
    simp only [List.length_nil, curWeight, emptyStep] at hlen
    simp only [Option.isSome_none, Bool.false_eq_true, if_false] at hlen
    exact le_trans hlen (by simp [boundaryCount])

/-- Decomposition of a successful `generate_plan` try-block: the returned
steps are exactly the filtered parse of the plan text, and the safety loop
found no deny-listed pattern. -/
theorem generatePlanTry_ok {text : String} {steps : List PlanStep}
    (h : generatePlanTry text = Except.ok steps) :
    ∃ parsed, parseSteps text = some parsed ∧ steps = filterSteps parsed ∧
      hasUnsafe steps = false := by
  unfold generatePlanTry at h
  cases hp : parseSteps text with
  | none => rw [hp] at h; exact absurd h (by simp)
  | some parsed =>
    rw [hp] at h
    simp only [] at h
    by_cases he : (filterSteps parsed).isEmpty = true
    · rw [if_pos he] at h; exact absurd h (by simp)
    · rw [if_neg he] at h
      by_cases hu : hasUnsafe (filterSteps parsed) = true
      · rw [if_pos hu] at h; exact absurd h (by simp)
      · rw [if_neg hu] at h
        obtain rfl := Except.ok.inj h
        exact ⟨parsed, rfl, rfl, Bool.eq_false_iff.mpr hu⟩



/-- C1 (counterexample): for the plan text `Description: d\nCommand: format
c:` a parsed step's command (lowercased) contains the deny-listed pattern
`format c:`, yet `generate_plan` does not report failure to its caller: the
exception raised by the safety check is caught by its own handler, and the
substitute single-step fallback plan is delivered.  This refutes the claim
that no step sequence is delivered. -/
theorem C1_counterexample :
    (∃ s ∈ (parseSteps "Description: d\nCommand: format c:").getD [],
      stepUnsafe s = true) ∧
    generatePlan "Description: d\nCommand: format c:" = fallbackPlan ∧
    fallbackPlan ≠ [] := by
  refine ⟨⟨⟨some "d", some "format c:", none⟩, by decide, by decide⟩, by decide, by decide⟩

/-- C1 (amended): when some step of the parsed, filtered plan has a
(translated) command whose lowercase form contains a deny-listed pattern,
`generate_plan` discards that plan entirely — no parsed step is delivered —
and returns the fixed fallback diagnostic plan instead (the internal
exception is caught at agent.py line 227).  Note the check runs after
translation, so a raw `rm -rf /` (translated to `del -rf /`) does not
trigger it. -/
theorem C1_unsafe_returns_fallback : ∀ (text : String) (parsed : List PlanStep),
    parseSteps text = some parsed →
    hasUnsafe (filterSteps parsed) = true →
    generatePlan text = fallbackPlan := by
  intro text parsed hp hu
  unfold generatePlan generatePlanTry
  rw [hp]
  simp only []
  by_cases he : (filterSteps parsed).isEmpty = true
  · rw [if_pos he]
  · rw [if_neg he, if_pos hu]

/-- C1 (witness): the amended theorem applied to the `format c:` input. -/
theorem C1_witness :
    generatePlan "Description: x\nCommand: format c:" = fallbackPlan :=
  C1_unsafe_returns_fallback "Description: x\nCommand: format c:"
    [⟨some "x", some "format c:", none⟩] (by decide) (by decide)

/-- C2 (counterexample): a process that runs 31 seconds — longer than the
claimed ≈30s execution timeout — with exit status 0 makes `execute_command`
return success, not a timeout failure: no timeout is ever passed to
`subprocess.run` (agent.py lines 245-250). -/
theorem C2_counterexample :
    30 < (⟨31, 0, "done", ""⟩ : ShellProcess).duration ∧
    executeCommand "sleep 100" ⟨31, 0, "done", ""⟩ = (true, "done") := by
  exact ⟨by decide, by decide⟩

/-- C2 (amended): `execute_command` imposes no execution timeout at all —
its result is independent of how long the command runs; the ≈30s timeout in
the source is only on the HTTP request of `generate_plan`.  Formally the
result is invariant under changing the process duration. -/
theorem C2_no_timeout : ∀ (cmd : String) (p : ShellProcess) (d : Nat),
    executeCommand cmd p = executeCommand cmd { p with duration := d } := by
  intro cmd p d
  rfl

/-- C3 (counterexample): a bare `Description:` line is not a flushing
boundary: with an accumulated step carrying description `a`, the line
`Description: b` leaves the emitted step list empty (nothing is flushed) and
overwrites the accumulator's description in place, refuting the claim that
boundary kind (c) flushes the accumulated step. -/
theorem C3_counterexample :
    processLine ⟨[], ⟨some "a", none, none⟩⟩ "Description: b" =
      some ⟨[], ⟨some "b", none, none⟩⟩ ∧
    ([] : List PlanStep) ≠ [] ++ [(⟨some "a", none, none⟩ : PlanStep)] := by
  exact ⟨by decide, by decide⟩

/-- C3 (amended): boundary kinds (a) (numbered line with inline
`Description:`) and (b) (line starting with `Step`) flush the accumulated
step — if it has a description — and start a fresh accumulator; a bare
`Description:` line (kind (c)) does not flush: it only overwrites the
current accumulator's description. -/
theorem C3_boundary_behaviour : ∀ (st : ParseState) (l : String),
    (lineIsNumberedDescr l = true →
      processStripped st l =
        some ⟨flushIfDescribed st.steps st.cur,
          { emptyStep with
            description := some (pyStrip ((strSplit l ": Description:").getD 1 "")) }⟩) ∧
    (lineIsStepHeader l = true →
      processStripped st l = some ⟨flushIfDescribed st.steps st.cur, emptyStep⟩) ∧
    (lineIsDescr l = true →
      processStripped st l =
        some ⟨st.steps,
          { st.cur with
            description := some (pyStrip (strReplace l "Description:" "")) }⟩) := by
  intro st l
  exact ⟨fun h => processStripped_numbered st h,
    fun h => processStripped_header st h,
    fun h => processStripped_descr st h⟩

/-- C3 (witness): the three boundary behaviours at concrete inputs — a
`Step` header flushing a described accumulator, a numbered inline
description flushing and seeding the next accumulator, and a bare
`Description:` line overwriting without flushing. -/
theorem C3_witness :
    processStripped ⟨[⟨some "z", some "dir", none⟩], ⟨some "a", some "cd", none⟩⟩
        "Step 2:" =
      some ⟨[⟨some "z", some "dir", none⟩, ⟨some "a", some "cd", none⟩], emptyStep⟩ ∧
    processStripped ⟨[], ⟨some "a", none, none⟩⟩ "1: Description: b" =
      some ⟨[⟨some "a", none, none⟩], ⟨some "b", none, none⟩⟩ ∧
    processStripped ⟨[], ⟨some "a", none, none⟩⟩ "Description: b" =
      some ⟨[], ⟨some "b", none, none⟩⟩ := by
  refine ⟨?_, ?_, ?_⟩
  · exact (C3_boundary_behaviour ⟨[⟨some "z", some "dir", none⟩],
      ⟨some "a", some "cd", none⟩⟩ "Step 2:").2.1 (by decide)
  · exact (C3_boundary_behaviour ⟨[], ⟨some "a", none, none⟩⟩
      "1: Description: b").1 (by decide)
  · exact (C3_boundary_behaviour ⟨[], ⟨some "a", none, none⟩⟩
      "Description: b").2.2 (by decide)

/-- C4 (counterexample): the line `Command: \x60` carries the value of a
single backtick — non-empty and not one of the absent markers `n/a` /
`none` / `no command` — yet it does not overwrite the earlier command
`dir`: its translation (backtick stripping) is empty, so the `if cmd:`
guard drops it.  This refutes unconditional last-write-wins for present
command values. -/
theorem C4_counterexample :
    processLine ⟨[], ⟨some "d", some "dir", none⟩⟩ "Command: \x60" =
      some ⟨[], ⟨some "d", some "dir", none⟩⟩ ∧
    (pyStrip (strReplace "Command: \x60" "Command:" "")).data.isEmpty = false ∧
    absentCommands.contains
      (strLower (pyStrip (strReplace "Command: \x60" "Command:" ""))) = false := by
  exact ⟨by decide, by decide, by decide⟩

/-- C4 (amended): later occurrences of `Description:` and `Validation:`
overwrite the accumulator's field unconditionally; a later `Command:` line
overwrites exactly when its value is non-empty, not an absent marker
(`n/a`/`none`/`no command`, case-insensitively), and its Windows
translation is non-empty — what is stored is the translated value.  Absent
or empty values leave the earlier command in place. -/
theorem C4_field_update : ∀ (st : ParseState) (l : String),
    (lineIsDescr l = true →
      processStripped st l =
        some ⟨st.steps,
          { st.cur with
            description := some (pyStrip (strReplace l "Description:" "")) }⟩) ∧
    (strStarts l "Validation:" = true →
      processStripped st l =
        some ⟨st.steps,
          { st.cur with
            validation := some (pyStrip (strReplace l "Validation:" "")) }⟩) ∧
    (strStarts l "Command:" = true →
      ((pyStrip (strReplace l "Command:" "")).data.isEmpty = true ∨
        absentCommands.contains
          (strLower (pyStrip (strReplace l "Command:" ""))) = true →
        processStripped st l = some st) ∧
      (∀ c, (pyStrip (strReplace l "Command:" "")).data.isEmpty = false →
        absentCommands.contains
          (strLower (pyStrip (strReplace l "Command:" ""))) = false →
        convertToWindowsCommand (pyStrip (strReplace l "Command:" "")) = some c →
        c.data.isEmpty = false →
        processStripped st l =
          some ⟨st.steps, { st.cur with command := some c }⟩)) := by
  intro st l
  refine ⟨fun h => processStripped_descr st h,
    fun h => processStripped_valid st h,
    fun h => ⟨fun habs => processStripped_command_absent st h habs,
      fun c hne habs hconv hcne =>
        processStripped_command_set st h hne habs hconv hcne⟩⟩

/-- C4 (witness): concrete overwrites — a second description, a second
validation, an absent `N/A` command value leaving the command intact, and
a present `ls` value overwriting `cd` with its translation `dir`. -/
theorem C4_witness :
    processStripped ⟨[], ⟨some "a", some "cd", some "v0"⟩⟩ "Description: b" =
      some ⟨[], ⟨some "b", some "cd", some "v0"⟩⟩ ∧
    processStripped ⟨[], ⟨some "a", some "cd", some "v0"⟩⟩ "Validation: v1" =
      some ⟨[], ⟨some "a", some "cd", some "v1"⟩⟩ ∧
    processStripped ⟨[], ⟨some "a", some "cd", some "v0"⟩⟩ "Command: N/A" =
      some ⟨[], ⟨some "a", some "cd", some "v0"⟩⟩ ∧
    processStripped ⟨[], ⟨some "a", some "cd", some "v0"⟩⟩ "Command: ls" =
      some ⟨[], ⟨some "a", some "dir", some "v0"⟩⟩ := by
  refine ⟨?_, ?_, ?_, ?_⟩
  · exact (C4_field_update ⟨[], ⟨some "a", some "cd", some "v0"⟩⟩
      "Description: b").1 (by decide)
  · exact (C4_field_update ⟨[], ⟨some "a", some "cd", some "v0"⟩⟩
      "Validation: v1").2.1 (by decide)
  · exact ((C4_field_update ⟨[], ⟨some "a", some "cd", some "v0"⟩⟩
      "Command: N/A").2.2 (by decide)).1 (Or.inr (by decide))
  · exact ((C4_field_update ⟨[], ⟨some "a", some "cd", some "v0"⟩⟩
      "Command: ls").2.2 (by decide)).2 "dir" (by decide) (by decide)
      (by decide) (by decide)

/-- C5 (counterexample): the plan text `Description:\nCommand: dir` has a
recognizable boundary whose `Description:` field is empty; the parser
stores the empty string as the description and the step survives filtering,
so the final plan retains a step with an empty description, refuting the
non-empty-description part of the claim. -/
theorem C5_counterexample :
    generatePlan "Description:\nCommand: dir" = [⟨some "", some "dir", none⟩] ∧
    (∃ s ∈ generatePlan "Description:\nCommand: dir", s.description = some "") := by
  exact ⟨by decide, ⟨⟨some "", some "dir", none⟩, by decide, by decide⟩⟩

/-- C5 (amended): for any raw plan text the parser outputs at most as many
steps as there are recognizable boundaries (kinds (a), (b), (c)), both
before and after filtering, and every parsed step has a description key —
though its value may be the empty string. -/
theorem C5_parser_bound : ∀ (text : String) (steps : List PlanStep),
    parseSteps text = some steps →
    steps.length ≤ boundaryCount text ∧
      (filterSteps steps).length ≤ boundaryCount text ∧
      ∀ s ∈ steps, s.description.isSome = true := by
  intro text steps h
  obtain ⟨hok, hlen⟩ := parseSteps_inv text steps h
  exact ⟨hlen, le_trans (List.length_filter_le _ _) hlen,
    fun s hs => (hok s hs).1⟩

/-- C5 (witness): the bound at a concrete two-boundary text. -/
theorem C5_witness :
    ([⟨some "a", some "dir", none⟩] : List PlanStep).length ≤
      boundaryCount "Step 1:\nDescription: a\nCommand: ls" ∧
    (filterSteps [⟨some "a", some "dir", none⟩]).length ≤
      boundaryCount "Step 1:\nDescription: a\nCommand: ls" ∧
    ∀ s ∈ ([⟨some "a", some "dir", none⟩] : List PlanStep),
      s.description.isSome = true :=
  C5_parser_bound "Step 1:\nDescription: a\nCommand: ls"
    [⟨some "a", some "dir", none⟩] (by decide)

/-- C6 (counterexample): the raw command value `\x60none\x60` is not an
absent marker, but its translation strips the backticks, so the final
filtered plan carries a step whose command is literally `none`, refuting
the claim that such values never appear as commands in the final plan. -/
theorem C6_counterexample :
    generatePlan "Description: d\nCommand: \x60none\x60" =
      [⟨some "d", some "none", none⟩] ∧
    absentCommands.contains (strLower "none") = true := by
  exact ⟨by decide, by decide⟩

/-- C6 (amended): the parser never assigns a command field directly from a
raw value that lowercases to `n/a`, `none` or `no command`: such a line
leaves the state unchanged.  A command equal to one of those strings can
only arise via translation of a different raw value (e.g. backtick-wrapped
`\x60none\x60`). -/
theorem C6_absent_never_assigned : ∀ (st : ParseState) (l : String),
    strStarts l "Command:" = true →
    absentCommands.contains (strLower (pyStrip (strReplace l "Command:" ""))) = true →
    processStripped st l = some st :=
  fun st _l h habs => processStripped_command_absent st h (Or.inr habs)

/-- C6 (witness): an uppercase `None` value leaves the accumulator
unchanged. -/
theorem C6_witness :
    processStripped ⟨[], ⟨some "d", some "dir", none⟩⟩ "Command: None" =
      some ⟨[], ⟨some "d", some "dir", none⟩⟩ :=
  C6_absent_never_assigned ⟨[], ⟨some "d", some "dir", none⟩⟩ "Command: None"
    (by decide) (by decide)

/-- C7: a command that matches none of the translator's rewrite rules —
the backtick/whitespace cleanup changes nothing and no prefix rule applies
— is returned unchanged. -/
theorem C7_pass_through : ∀ cmd : String,
    matchesRewriteRule cmd = false → convertToWindowsCommand cmd = some cmd := by
  intro cmd h
  simp only [matchesRewriteRule, rewritePrefixes, Bool.or_eq_false_iff,
    Bool.not_eq_false', beq_iff_eq, List.any_cons, List.any_nil] at h
  obtain ⟨hclean, h1, h2, h3, h4, h5, h6, h7, h8, h9, h10, -⟩ := h
  unfold convertToWindowsCommand
  rw [hclean]
  simp only [h1, h2, h3, h4, h5, h6, h7, h8, h9, h10, Bool.false_eq_true,
    if_false]

/-- C7 (witness): `dir` matches no rule and passes through unchanged. -/
theorem C7_witness :
    matchesRewriteRule "dir" = false ∧
      convertToWindowsCommand "dir" = some "dir" :=
  ⟨by decide, C7_pass_through "dir" (by decide)⟩

/-- C8: invariant of every plan returned by `generate_plan` (including the
fallback plan of the exception handler): every surviving step carries a
command that is a non-empty string and does not start with `rem Skipping`;
steps lacking a command were dropped by the filter of agent.py line 214. -/
theorem C8_plan_invariant : ∀ (text : String) (s : PlanStep),
    s ∈ generatePlan text →
    ∃ c, s.command = some c ∧ c.data.isEmpty = false ∧
      strStarts c "rem Skipping" = false := by
  intro text s hs
  unfold generatePlan at hs
  cases hg : generatePlanTry text with
  | error e =>
    rw [hg] at hs
    simp only [fallbackPlan, List.mem_singleton] at hs
    subst hs
    exact ⟨_, rfl, by decide, by decide⟩
  | ok steps =>
    rw [hg] at hs
    obtain ⟨parsed, hp, rfl, -⟩ := generatePlanTry_ok hg
    obtain ⟨hok, -⟩ := parseSteps_inv text parsed hp
    simp only [filterSteps, List.mem_filter] at hs
    obtain ⟨hmem, hkeep⟩ := hs
    obtain ⟨-, hcmd⟩ := hok s hmem
    cases hc : s.command with
    | none =>
      simp only [keepStep, hc] at hkeep
      exact absurd hkeep Bool.false_ne_true
    | some c =>
      refine ⟨c, rfl, hcmd c hc, ?_⟩
      simp only [keepStep, hc, Bool.not_eq_true'] at hkeep
      exact hkeep

/-- C8 (witness): the invariant at a concrete parsed plan. -/
theorem C8_witness :
    ∃ c, (⟨some "d", some "dir", none⟩ : PlanStep).command = some c ∧
      c.data.isEmpty = false ∧ strStarts c "rem Skipping" = false :=
  C8_plan_invariant "Description: d\nCommand: dir"
    ⟨some "d", some "dir", none⟩ (by decide)

/-- C9 (counterexample): on a failing command that wrote to both streams,
`execute_command` surfaces stdout (`result.stdout or result.stderr`,
agent.py line 261), not stderr, refuting the claim that stderr is the
surfaced failure reason. -/
theorem C9_counterexample :
    executeCommand "badcmd" ⟨0, 1, "partial output", "some error"⟩ =
      (false, "partial output") ∧
    "partial output" ≠ "some error" := by
  exact ⟨by decide, by decide⟩

/-- C9 (amended): an empty or whitespace-only command fails with the
`Empty command received` message without consulting the process at all;
otherwise success holds iff the exit status is zero, and the surfaced
output is stdout when non-empty, else stderr. -/
theorem C9_execute_spec : ∀ (cmd : String) (p : ShellProcess),
    ((cmd.data.isEmpty = true ∨ (pyStrip cmd).data.isEmpty = true) →
      executeCommand cmd p = (false, "Empty command received")) ∧
    (cmd.data.isEmpty = false → (pyStrip cmd).data.isEmpty = false →
      executeCommand cmd p =
        ((p.returncode == 0),
          if p.stdout.data.isEmpty then p.stderr else p.stdout)) := by
  intro cmd p
  constructor
  · intro h
    unfold executeCommand
    cases h with
    | inl h => rw [h]; rfl
    | inr h => rw [h]; simp
  · intro h1 h2
    unfold executeCommand
    rw [h1, h2]
    rfl

/-- C9 (witness): both clauses at concrete inputs. -/
theorem C9_witness :
    executeCommand "" ⟨0, 0, "", ""⟩ = (false, "Empty command received") ∧
    executeCommand "dir" ⟨0, 0, "out", "err"⟩ = (true, "out") := by
  constructor
  · exact (C9_execute_spec "" ⟨0, 0, "", ""⟩).1 (Or.inl (by decide))
  · exact (C9_execute_spec "dir" ⟨0, 0, "out", "err"⟩).2 (by decide) (by decide)

/-- Helper: the retry loop of `_wait_for_model` returns `True` for every
probe behaviour and every remaining retry budget. -/
theorem waitForModelAux_fst (probes : Nat → ProbeResult) (url : String) :
    ∀ (fuel i : Nat), (waitForModelAux probes url i fuel).fst = true := by
  intro fuel
  induction fuel with
  | zero => intro i; rfl
  | succ n ih =>
    intro i
    unfold waitForModelAux
    split
    · rfl
    · exact ih (i + 1)
    · exact ih (i + 1)

/-- C10: `_wait_for_model` returns `True` on every execution path — after
at most 3 failed readiness probes it switches to the fallback model and
still returns `True` — hence the `Model not available` branch of
`generate_plan` (agent.py lines 125-126) can never raise. -/
theorem C10_wait_always_true : ∀ probes : Nat → ProbeResult,
    (waitForModel probes).fst = true ∧
      generatePlanModelCheck probes = Except.ok () := by
  intro probes
  have h : (waitForModel probes).fst = true := waitForModelAux_fst probes primaryUrl 3 0
  refine ⟨h, ?_⟩
  unfold generatePlanModelCheck
  rw [if_neg]
  simp [h]
